import Mathlib

/-!
Verification of the CVE source-plugin subsystem of the `gen0sec/mcp-server`
repository: the plugin registry/dispatcher (`plugins/plugin_manager.py`),
the abstract plugin contract (`plugins/base.py`) and the Local Archive
plugin (`plugins/nuclei_opensource.py`).

Python strings are modelled as Lean `String`, Python `None`-able values as
`Option`, Python dicts (insertion-ordered, last write per key wins) as
association lists, and the filesystem / network effects of the Local
Archive plugin as an explicit state record together with an oracle record.
A plugin-level exception is modelled as an explicit `raises` outcome, so
the dispatcher's `try/except` blocks become total pattern matches.
-/

set_option autoImplicit false

namespace MCP

/-! ## Python string primitives used by the code -/

/-- Left part of Python `str.strip()`: drop leading whitespace characters. -/
def ltrimChars (l : List Char) : List Char := l.dropWhile Char.isWhitespace

/-- Right part of Python `str.strip()`: drop trailing whitespace characters. -/
def rtrimChars : List Char → List Char
  | [] => []
  | c :: rest =>
    let r := rtrimChars rest
    if r.isEmpty && c.isWhitespace then [] else c :: r

/-- Python `str.strip()` on `String`. -/
def pyStrip (s : String) : String := String.mk (rtrimChars (ltrimChars s.toList))

/-- Contiguous-substring test on character lists: does `needle` occur as a
prefix of some suffix of the second argument? -/
def pyInChars (needle : List Char) : List Char → Bool
  | [] => needle.isEmpty
  | c :: rest => needle.isPrefixOf (c :: rest) || pyInChars needle rest

/-- Python substring containment `needle in hay`. -/
def pyIn (needle hay : String) : Bool := pyInChars needle.toList hay.toList

/-- Python `str.upper()` (character-wise, as for the ASCII identifiers
and filenames involved here). -/
def pyUpper (s : String) : String := String.mk (s.toList.map Char.toUpper)

/-- Python `str.lower()` (character-wise). -/
def pyLower (s : String) : String := String.mk (s.toList.map Char.toLower)

/-- Python `str.startswith('v')`: first character is `v`. -/
def startsWithV (s : String) : Bool :=
  match s.toList with
  | c :: _ => c = 'v'
  | [] => false

/-! ## Data model (`plugins/base.py`) -/

/-- `CVEResult` from `base.py`: the metadata dict is modelled as an
insertion-ordered association list with `Option String` values (the
`version` entry of the Local Archive plugin may be `None`). -/
structure CVEResult where
  cve_id : String
  source : String
  content : String
  metadata : Option (List (String × Option String)) := none
deriving DecidableEq, Repr

/-- Outcome of one call to a plugin's `fetch_cve`: a result, `None`, or a
raised exception carrying its message (the dispatcher formats it with
`str(e)`). -/
inductive PluginFetch where
  | found (r : CVEResult)
  | notFound
  | raises (msg : String)

/-- Whether a plugin call produced a result (Python truthiness of the
returned `Optional[CVEResult]`). -/
def PluginFetch.isFound : PluginFetch → Bool
  | .found _ => true
  | _ => false

/-- Abstract plugin as seen by the dispatcher (`CVESourcePlugin`):
`name`, `priority`, `enabled` are the common constructor fields;
`availB` is the value returned by the side-effect-free `is_available()`
(e.g. `enabled and templates_path.exists()` for the Local Archive plugin);
`fetchB` is the behaviour of `fetch_cve` per identifier. -/
structure Plugin where
  name : String
  priority : Int
  enabled : Bool
  availB : Bool
  fetchB : String → PluginFetch

/-! ## Registry (`plugin_manager.py`) -/

/-- Stable insertion of `x` into a list already stably sorted by `key`:
`x` is placed after every element whose key is `≤ key x`.  Folding this
over a list from the left is a stable sort by `key`, hence produces the
same list as Python's stable `list.sort(key=...)`. -/
def pyInsertSorted {α : Type} (key : α → Int) (x : α) : List α → List α
  | [] => [x]
  | y :: rest =>
    if key y ≤ key x then y :: pyInsertSorted key x rest else x :: y :: rest

/-- Python `list.sort(key=...)` (a stable sort) as a left fold of stable
insertions. -/
def pySortStable {α : Type} (key : α → Int) (l : List α) : List α :=
  l.foldl (fun acc x => pyInsertSorted key x acc) []

/-- `CVEPluginManager.register`: append the plugin, then stable-sort the
list by priority. The manager state is the `_plugins` list. -/
def registerP (st : List Plugin) (p : Plugin) : List Plugin :=
  pySortStable Plugin.priority (st ++ [p])

/-- `CVEPluginManager.register` instrumented with a ghost registration
index: each plugin is tagged with a counter value recording the order of
`register` calls.  Sorting compares only the priority, exactly as in
`registerP`; the tag is never consulted. -/
def registerTagged (st : List (Nat × Plugin) × Nat) (p : Plugin) :
    List (Nat × Plugin) × Nat :=
  (pySortStable (fun x => x.2.priority) (st.1 ++ [(st.2, p)]), st.2 + 1)

/-- The registry obtained from a sequence of `register` calls on a fresh
manager (ghost-tagged form). -/
def registerSeq (ps : List Plugin) : List (Nat × Plugin) × Nat :=
  ps.foldl registerTagged ([], 0)

/-- Ordering invariant of the registry list: consecutive-free pairwise
order by strictly increasing priority, or equal priority and strictly
increasing registration index — i.e. non-decreasing priority with ties in
registration order. -/
def regOrder (a b : Nat × Plugin) : Prop :=
  a.2.priority < b.2.priority ∨ (a.2.priority = b.2.priority ∧ a.1 < b.1)

/-- The registry obtained from a sequence of `register` calls on a fresh
manager (plain form, exactly the code's `_plugins` list). -/
def registerSeqP (ps : List Plugin) : List Plugin :=
  ps.foldl registerP []

/-- `CVEPluginManager.list_plugins`: snapshot of name, priority, enabled
and fresh `is_available()` per plugin, in `_plugins` order. -/
def list_plugins (st : List Plugin) : List (String × Int × Bool × Bool) :=
  st.map (fun p => (p.name, p.priority, p.enabled, p.availB))

/-! ## Dispatcher (`plugin_manager.py`, `fetch_cve`) -/

/-- Result dict of `CVEPluginManager.fetch_cve` /
`fetch_cve_from_all`: optional fields model keys that are absent from the
returned Python dict in the corresponding branch. -/
structure DispatchResult where
  success : Bool
  cve_id : String
  error : Option String := none
  source : Option String := none
  content : Option String := none
  metadata : Option (List (String × Option String)) := none
  available_sources : Option (List String) := none
  sources_checked : Option (List String) := none
  details : Option (List String) := none

/-- The priority-order query loop inside `fetch_cve`: returns the first
result (if any plugin both enabled, available and returning data), the
accumulated per-plugin diagnostic strings, and — as an instrumentation of
the embedding — the list of plugins whose `fetch_cve` was actually
invoked.  Exceptions from a plugin are caught (`raises` branch), recorded
as `"<name>: <message>"`, and the loop continues. -/
def queryPlugins (cve_id : String) :
    List Plugin → Option CVEResult × List String × List Plugin
  | [] => (none, [], [])
  | p :: rest =>
    if !p.enabled then queryPlugins cve_id rest
    else if !p.availB then
      let r := queryPlugins cve_id rest
      (r.1, (p.name ++ ": not available") :: r.2.1, r.2.2)
    else
      match p.fetchB cve_id with
      | .found res => (some res, [], [p])
      | .notFound =>
        let r := queryPlugins cve_id rest
        (r.1, (p.name ++ ": not found") :: r.2.1, p :: r.2.2)
      | .raises msg =>
        let r := queryPlugins cve_id rest
        (r.1, (p.name ++ ": " ++ msg) :: r.2.1, p :: r.2.2)

/-- Success dict built by `fetch_cve` from the winning plugin's result. -/
def successDict (r : CVEResult) : DispatchResult :=
  { success := true
    cve_id := r.cve_id
    source := some r.source
    content := some r.content
    metadata := r.metadata }

/-- Run the query loop over a plugin list and build the final dict of
`fetch_cve` (success dict on a hit, else the aggregated failure dict). -/
def runQuery (ps : List Plugin) (cve_id : String) :
    DispatchResult × List Plugin :=
  match queryPlugins cve_id ps with
  | (some r, _, inv) => (successDict r, inv)
  | (none, errs, inv) =>
    ({ success := false
       cve_id := cve_id
       error := some ("CVE " ++ cve_id ++ " not found in any source")
       sources_checked := some ((ps.filter (fun p => p.enabled)).map Plugin.name)
       details := some errs }, inv)

/-- `CVEPluginManager.fetch_cve`, instrumented with the list of plugins
whose `fetch_cve` method was invoked during the call.  `source = none`
models the default `source=None`; the Python guard `if source:` is also
false for the empty string.  (The code formats the unknown-source error
with the requested name in quotes; the quotes are elided here.) -/
def fetch_cveT (st : List Plugin) (cve_id : String) (source : Option String) :
    DispatchResult × List Plugin :=
  if st.isEmpty then
    ({ success := false
       error := some "No CVE source plugins registered"
       cve_id := cve_id }, [])
  else
    match source with
    | none => runQuery st cve_id
    | some s =>
      if s = "" then runQuery st cve_id
      else
        let filtered := st.filter (fun p => p.name = s)
        if filtered.isEmpty then
          ({ success := false
             error := some ("Source " ++ s ++ " not found")
             cve_id := cve_id
             available_sources := some (st.map Plugin.name) }, [])
        else runQuery filtered cve_id

/-- `CVEPluginManager.fetch_cve` (result dict only). -/
def fetch_cve (st : List Plugin) (cve_id : String) (source : Option String) :
    DispatchResult :=
  (fetch_cveT st cve_id source).1

/-! ## `fetch_cve_from_all` (`plugin_manager.py`) -/

/-- One per-source entry of the `results` dict built by
`fetch_cve_from_all`. -/
structure SourceResult where
  success : Bool
  content : Option String := none
  metadata : Option (List (String × Option String)) := none
  error : Option String := none
deriving DecidableEq, Repr

/-- The entry `fetch_cve_from_all` stores for a plugin, covering its
success, not-found and exception branches. -/
def sourceResultOf (p : Plugin) (cve_id : String) : SourceResult :=
  match p.fetchB cve_id with
  | .found r => { success := true, content := some r.content, metadata := r.metadata }
  | .notFound => { success := false, error := some "Not found" }
  | .raises msg => { success := false, error := some msg }

/-- Python dict assignment `d[k] = v` on an insertion-ordered association
list: an existing key keeps its position and gets the new value, a new key
is appended at the end. -/
def dictInsert {β : Type} (k : String) (v : β) :
    List (String × β) → List (String × β)
  | [] => [(k, v)]
  | (k', v') :: rest =>
    if k' = k then (k, v) :: rest else (k', v') :: dictInsert k v rest

/-- Python dict read `d[k]` on the association-list model: value of the
entry with key `k` (keys are unique by construction of `dictInsert`). -/
def dictGet {β : Type} (k : String) : List (String × β) → Option β
  | [] => none
  | e :: rest => if e.1 = k then some e.2 else dictGet k rest

/-- Negation of the skip condition
`if not plugin.enabled or not plugin.is_available(): continue` in
`fetch_cve_from_all`: the plugin is queried iff it is enabled and
available. -/
def activeP (p : Plugin) : Bool := p.enabled && p.availB

/-- The loop of `fetch_cve_from_all`: walk `_plugins` in order, skip
plugins that are disabled or unavailable, store each queried plugin's
entry under its name (`results[plugin.name] = ...`), and record — as an
instrumentation of the embedding — the plugins actually queried. -/
def queryAllGo (cve_id : String) (acc : List (String × SourceResult))
    (inv : List Plugin) : List Plugin → List (String × SourceResult) × List Plugin
  | [] => (acc, inv)
  | p :: rest =>
    if activeP p then
      queryAllGo cve_id (dictInsert p.name (sourceResultOf p cve_id) acc)
        (inv ++ [p]) rest
    else queryAllGo cve_id acc inv rest

/-- Aggregate dict returned by `fetch_cve_from_all`. -/
structure AllSourcesResult where
  cve_id : String
  sources : List (String × SourceResult)
  found_in : List String
deriving DecidableEq, Repr

/-- `CVEPluginManager.fetch_cve_from_all`, instrumented with the list of
plugins whose `fetch_cve` was invoked: queries every enabled and available
plugin, keys the per-source dict by plugin name, and derives `found_in`
from the dict entries whose `success` is true (dict iteration order). -/
def fetch_cve_from_allT (st : List Plugin) (cve_id : String) :
    AllSourcesResult × List Plugin :=
  let r := queryAllGo cve_id [] [] st
  ({ cve_id := cve_id
     sources := r.1
     found_in := (r.1.filter (fun e => e.2.success)).map Prod.fst }, r.2)

/-- `CVEPluginManager.fetch_cve_from_all` (result dict only). -/
def fetch_cve_from_all (st : List Plugin) (cve_id : String) : AllSourcesResult :=
  (fetch_cve_from_allT st cve_id).1

/-! ## Local Archive plugin (`nuclei_opensource.py`)

The observable on-disk state of one `NucleiOpenSourcePlugin` consists of
`<repo_folder>/nuclei-templates` (the installed directory: its template
files plus the `.nuclei_version` sentinel file), and the two temp
artifacts `nuclei-templates.zip` and `nuclei-templates_temp` tracked as
presence flags.  Network effects are an oracle: the result of the
GitHub latest-release probe and, per version tag, the file tree that a
successful download-plus-extraction of that tag would install (with the
single top-level directory of the release archive already collapsed, as
`_download_and_extract` does); `none` means the download or the
extraction raised.  Every modelled operation also reports how many
network requests it issued. -/

/-- One file below the templates directory: `path` is the full path
string stored in result metadata, `name` the filename matched against the
identifier, `content` the text that a permissive read yields. -/
structure FileEntry where
  path : String
  name : String
  content : String
deriving DecidableEq, Repr

/-- The installed `nuclei-templates` directory: its template files in
filesystem traversal order, and the content of the `.nuclei_version`
sentinel file when that file exists. -/
structure TemplatesDir where
  files : List FileEntry
  sentinel : Option String
deriving DecidableEq, Repr

/-- On-disk state of the plugin's `repo_folder`. -/
structure NucleiFS where
  templates : Option TemplatesDir
  zipTemp : Bool
  tempDir : Bool
deriving DecidableEq, Repr

/-- Constructor configuration of `NucleiOpenSourcePlugin` (the fields the
modelled operations consult). -/
structure NucleiConfig where
  version : String
  auto_update : Bool
  enabled : Bool
deriving DecidableEq, Repr

/-- Network oracle: `latest` is the `tag_name` reported by the GitHub
releases API (`none` when the request raises), and `archive v` is the
collapsed file tree installed by a successful download and extraction of
tag `v` (`none` when the download or the extraction raises). -/
structure NucleiNet where
  latest : Option String
  archive : String → Option (List FileEntry)

/-- `_normalize_version`: empty input falls back to the default tag,
otherwise strip whitespace and prepend `v` unless already present. -/
def normalizeVersion (version : String) : String :=
  if version = "" then "v10.3.5"
  else
    let t := pyStrip version
    if startsWithV t then t else "v" ++ t

/-- `_get_current_version`: read and strip the sentinel file, `none` when
the directory or the sentinel file is absent. -/
def getCurrentVersion (fs : NucleiFS) : Option String :=
  match fs.templates with
  | some d => d.sentinel.map pyStrip
  | none => none

/-- `_get_latest_version` together with its request count: one request is
always issued; a raised request or an empty `tag_name` falls back to the
configured version (`self.version`, already normalized in `__init__`). -/
def getLatestVersion (net : NucleiNet) (selfVersion : String) : String × Nat :=
  match net.latest with
  | none => (selfVersion, 1)
  | some tag => if tag = "" then (selfVersion, 1) else (normalizeVersion tag, 1)

/-- `_download_and_extract` together with its request count.  On success
the previous directory is replaced by the extracted tree, the sentinel is
written with the new version, and both temp artifacts are gone.  On a
raised download or extraction the cleanup branch removes both temp
artifacts and reports failure, leaving the templates directory as the
caller left it. -/
def downloadAndExtract (net : NucleiNet) (version : String) (fs : NucleiFS) :
    Bool × NucleiFS × Nat :=
  match net.archive version with
  | none => (false, { fs with zipTemp := false, tempDir := false }, 1)
  | some files =>
    (true,
     { templates := some { files := files, sentinel := some version }
       zipTemp := false
       tempDir := false }, 1)

/-- `_get_target_version` together with its request count: the latest
release when auto-update is on, else the configured version with no
request. -/
def getTargetVersion (net : NucleiNet) (cfg : NucleiConfig) : String × Nat :=
  if cfg.auto_update then getLatestVersion net (normalizeVersion cfg.version)
  else (normalizeVersion cfg.version, 0)

/-- `NucleiOpenSourcePlugin.initialize` together with its request count:
compute the target version (a latest-release probe when auto-update is
on), no-op when the sentinel already reports it, otherwise delete any
existing templates directory and download-and-extract the target. -/
def nucleiInit (net : NucleiNet) (cfg : NucleiConfig) (fs : NucleiFS) :
    Bool × NucleiFS × Nat :=
  let tn := getTargetVersion net cfg
  if getCurrentVersion fs = some tn.1 then (true, fs, tn.2)
  else
    let fs1 :=
      if fs.templates.isSome then { fs with templates := none } else fs
    let r := downloadAndExtract net tn.1 fs1
    (r.1, r.2.1, tn.2 + r.2.2)

/-- `NucleiOpenSourcePlugin.update` together with its request count: a
deliberate no-op success when auto-update is disabled, otherwise the same
resync as `nucleiInit` against the latest release. -/
def nucleiUpdate (net : NucleiNet) (cfg : NucleiConfig) (fs : NucleiFS) :
    Bool × NucleiFS × Nat :=
  if !cfg.auto_update then (true, fs, 0)
  else
    let selfV := normalizeVersion cfg.version
    let tn := getLatestVersion net selfV
    if getCurrentVersion fs = some tn.1 then (true, fs, tn.2)
    else
      let fs1 :=
        if fs.templates.isSome then { fs with templates := none } else fs
      let r := downloadAndExtract net tn.1 fs1
      (r.1, r.2.1, tn.2 + r.2.2)

/-- `NucleiOpenSourcePlugin.is_available`: enabled and templates
directory present. -/
def nucleiAvailable (cfg : NucleiConfig) (fs : NucleiFS) : Bool :=
  cfg.enabled && fs.templates.isSome

/-- The files visited by `rglob` under the templates directory: the
template files plus the `.nuclei_version` sentinel file when present. -/
def walkFiles (d : TemplatesDir) : List FileEntry :=
  d.files ++
    (match d.sentinel with
     | some v => [{ path := ".nuclei_version", name := ".nuclei_version", content := v }]
     | none => [])

/-- The filename test of `NucleiOpenSourcePlugin.fetch_cve`:
`cve_id.upper() in filename.upper() or cve_id.lower() in filename.lower()`. -/
def nameMatches (cve_id filename : String) : Bool :=
  pyIn (pyUpper cve_id) (pyUpper filename) || pyIn (pyLower cve_id) (pyLower filename)

/-- `NucleiOpenSourcePlugin.fetch_cve`: requires `is_available()`, walks
the directory, and returns a result built from the first file whose name
matches the identifier case-insensitively (the permissive
`errors='ignore'` read never raises in the model). -/
def nucleiFetch (cfg : NucleiConfig) (fs : NucleiFS) (cve_id : String) :
    Option CVEResult :=
  if !nucleiAvailable cfg fs then none
  else
    match fs.templates with
    | none => none
    | some d =>
      match (walkFiles d).find? (fun f => nameMatches cve_id f.name) with
      | some f =>
        some { cve_id := cve_id
               source := "Nuclei Open Source (GitHub)"
               content := f.content
               metadata := some [("file_path", some f.path),
                                 ("version", getCurrentVersion fs)] }
      | none => none

/-- The files a lookup can see for a given filesystem state: the
directory walk when the templates directory exists, nothing otherwise. -/
def walkOf (fs : NucleiFS) : List FileEntry :=
  match fs.templates with
  | some d => walkFiles d
  | none => []

/-- Absence of a leading whitespace character (trivially true for the
empty list).  Invariant used to show `pyStrip` is idempotent. -/
def headOkC : List Char → Prop
  | [] => True
  | c :: _ => c.isWhitespace = false

/-! ## Concrete inputs used by witnesses and counterexamples -/

/-- Concrete configuration used to witness C8. -/
def cfgC8 : NucleiConfig := { version := "v1.0.0", auto_update := false, enabled := true }

/-- Concrete filesystem state used to witness C8: an installed directory
with one template file and a sentinel. -/
def fsC8 : NucleiFS :=
  { templates := some { files := [{ path := "cves/a.yaml", name := "a.yaml", content := "tpl" }]
                        sentinel := some "v1.0.0" }
    zipTemp := false
    tempDir := false }

/-- Concrete winning result used to witness C2. -/
def resC2 : CVEResult := { cve_id := "CVE-2025-1", source := "A", content := "data" }

/-- Concrete higher-priority plugin (lower number) used to witness C2. -/
def plgC2A : Plugin :=
  { name := "A", priority := 50, enabled := true, availB := true
    fetchB := fun _ => .found resC2 }

/-- Concrete lower-priority plugin used to witness C2. -/
def plgC2B : Plugin :=
  { name := "B", priority := 100, enabled := true, availB := true
    fetchB := fun _ => .notFound }

/-- Concrete plugin missing the identifier, used to witness C7. -/
def plgC7Pre : Plugin :=
  { name := "Pre", priority := 10, enabled := true, availB := true
    fetchB := fun _ => .notFound }

/-- Concrete raising plugin used to witness C7. -/
def plgC7Raise : Plugin :=
  { name := "Mid", priority := 20, enabled := true, availB := true
    fetchB := fun _ => .raises "boom" }

/-- Concrete result of the plugin queried after the raising one in the
C7 witness. -/
def resC7 : CVEResult := { cve_id := "CVE-2025-2", source := "Post", content := "found" }

/-- Concrete succeeding plugin placed after the raising one, used to
witness C7. -/
def plgC7Post : Plugin :=
  { name := "Post", priority := 30, enabled := true, availB := true
    fetchB := fun _ => .found resC7 }

/-- Concrete configuration used to witness C9. -/
def cfgC9 : NucleiConfig := { version := "v10.3.5", auto_update := false, enabled := true }

/-- Concrete synced directory used to witness C9: one template file whose
lowercase name contains the queried identifier case-insensitively. -/
def fsC9 : NucleiFS :=
  { templates := some
      { files := [{ path := "http/cves/2021/cve-2021-44228-poc.yaml"
                    name := "cve-2021-44228-poc.yaml"
                    content := "log4j template" }]
        sentinel := some "v10.3.5" }
    zipTemp := false
    tempDir := false }

/-- Concrete configuration used for C1 and to witness C4-related
failure behaviour: statically pinned version, no auto-update. -/
def cfgC1 : NucleiConfig := { version := "v2.0.0", auto_update := false, enabled := true }

/-- Concrete network oracle for C1: every download fails. -/
def netC1 : NucleiNet := { latest := none, archive := fun _ => none }

/-- Concrete pre-sync state for C1: version v1.0.0 installed, sentinel
present, no temp artifacts. -/
def fsC1 : NucleiFS :=
  { templates := some { files := [{ path := "cves/old.yaml", name := "old.yaml", content := "old" }]
                        sentinel := some "v1.0.0" }
    zipTemp := false
    tempDir := false }

/-- Concrete configuration used to witness C4. -/
def cfgC4 : NucleiConfig := { version := "1.2.3", auto_update := false, enabled := true }

/-- Concrete network oracle used to witness C4: tag v1.2.3 downloads and
extracts successfully. -/
def netC4 : NucleiNet :=
  { latest := none
    archive := fun v =>
      if v = "v1.2.3" then
        some [{ path := "cves/new.yaml", name := "new.yaml", content := "new" }]
      else none }

/-- Concrete post-install state reached by the first `initialize` call in
the C4 witness. -/
def fsC4b : NucleiFS :=
  { templates := some { files := [{ path := "cves/new.yaml", name := "new.yaml", content := "new" }]
                        sentinel := some "v1.2.3" }
    zipTemp := false
    tempDir := false }

/-- Concrete result of the first duplicate-name plugin (C6/C10 inputs). -/
def resC6 : CVEResult := { cve_id := "CVE-2025-3", source := "Dup", content := "dup data" }

/-- Concrete plugin named `Dup` that finds the identifier (C6 inputs). -/
def plgC6A : Plugin :=
  { name := "Dup", priority := 10, enabled := true, availB := true
    fetchB := fun _ => .found resC6 }

/-- Concrete second plugin also named `Dup` that misses the identifier
(C6 inputs). -/
def plgC6B : Plugin :=
  { name := "Dup", priority := 20, enabled := true, availB := true
    fetchB := fun _ => .notFound }

/-- Concrete distinct-name plugins used to witness the amended C6. -/
def plgC6C : Plugin :=
  { name := "Alpha", priority := 10, enabled := true, availB := true
    fetchB := fun _ => .found resC6 }

/-- Concrete second distinct-name plugin used to witness the amended
C6. -/
def plgC6D : Plugin :=
  { name := "Beta", priority := 20, enabled := true, availB := true
    fetchB := fun _ => .notFound }

/-- Concrete result of the first same-named plugin in the C10 witness. -/
def resC10 : CVEResult := { cve_id := "CVE-2025-4", source := "Twin", content := "first" }

/-- Concrete plugin named `Twin` that finds the identifier (C10
witness). -/
def plgC10A : Plugin :=
  { name := "Twin", priority := 10, enabled := true, availB := true
    fetchB := fun _ => .found resC10 }

/-- Concrete second plugin named `Twin` that misses the identifier (C10
witness): being queried last, its entry overwrites the first one. -/
def plgC10B : Plugin :=
  { name := "Twin", priority := 20, enabled := true, availB := true
    fetchB := fun _ => .notFound }

/-! ## Registry helper lemmas -/

theorem registerP_nil (p : Plugin) : registerP [] p = [p] := rfl

theorem registerP_one (p q : Plugin) :
    registerP [p] q = if p.priority ≤ q.priority then [p, q] else [q, p] := rfl

/-! ## Claim theorems -/

/-- C5: with an empty registry, `fetch_cve` returns (never raises) the
structured failure dict with `success = false`, the error string saying
that no source plugins are registered, and the queried identifier echoed
back; no plugin is invoked.  This holds for every identifier and every
requested source filter. -/
theorem C5_empty_registry (cve_id : String) (source : Option String) :
    fetch_cveT [] cve_id source =
      ({ success := false
         error := some "No CVE source plugins registered"
         cve_id := cve_id }, []) := rfl

/-- C8: when auto-update is disabled, `update()` returns success while
issuing zero network requests and leaving the on-disk state (templates
directory and sentinel file) exactly as it was. -/
theorem C8_update_disabled_noop (net : NucleiNet) (cfg : NucleiConfig)
    (fs : NucleiFS) (h : cfg.auto_update = false) :
    nucleiUpdate net cfg fs = (true, fs, 0) := by
  simp [nucleiUpdate, h]

theorem C8_update_disabled_noop_witness :
    cfgC8.auto_update = false ∧
      nucleiUpdate { latest := none, archive := fun _ => none } cfgC8 fsC8 =
        (true, fsC8, 0) :=
  ⟨rfl, C8_update_disabled_noop { latest := none, archive := fun _ => none } cfgC8 fsC8 rfl⟩

/-- C2: dispatch short-circuits.  For a registry holding two enabled and
available plugins (registered in either order), where `p` has the lower
priority number and returns a result for identifier `x`, `fetch_cve`
returns the success dict carrying `p`'s result, and the only plugin whose
`fetch_cve` method is invoked during the call is `p` — in particular the
lower-priority plugin `q` is never invoked. -/
theorem C2_dispatch_short_circuit (p q : Plugin) (x : String) (r : CVEResult)
    (hpq : p.priority < q.priority)
    (hpe : p.enabled = true) (hpa : p.availB = true)
    (hqe : q.enabled = true) (hqa : q.availB = true)
    (hf : p.fetchB x = .found r)
    (st : List Plugin)
    (hst : st = registerP (registerP [] p) q ∨ st = registerP (registerP [] q) p) :
    fetch_cveT st x none = (successDict r, [p]) ∧ q ∉ (fetch_cveT st x none).2 := by
  have hqp : q ≠ p := by
    intro h
    rw [h] at hpq
    exact lt_irrefl _ hpq
  have hst2 : st = [p, q] := by
    rcases hst with h | h
    · rw [h, registerP_nil, registerP_one, if_pos (le_of_lt hpq)]
    · rw [h, registerP_nil, registerP_one, if_neg (not_le.mpr hpq)]
  have hmain : fetch_cveT st x none = (successDict r, [p]) := by
    subst hst2
    simp [fetch_cveT, runQuery, queryPlugins, hpe, hpa, hf]
  refine ⟨hmain, ?_⟩
  rw [hmain]
  simp [hqp]

theorem queryPlugins_append (cve : String) (pre rest : List Plugin)
    (h : (queryPlugins cve pre).1 = none) :
    queryPlugins cve (pre ++ rest) =
      ((queryPlugins cve rest).1,
       (queryPlugins cve pre).2.1 ++ (queryPlugins cve rest).2.1,
       (queryPlugins cve pre).2.2 ++ (queryPlugins cve rest).2.2) := by
  induction pre with
  | nil => simp [queryPlugins]
  | cons p ps ih =>
    cases hpe : p.enabled with
    | false =>
      have h' : (queryPlugins cve ps).1 = none := by
        simpa [queryPlugins, hpe] using h
      simp [queryPlugins, hpe, ih h']
    | true =>
      cases hpa : p.availB with
      | false =>
        have h' : (queryPlugins cve ps).1 = none := by
          simpa [queryPlugins, hpe, hpa] using h
        simp [queryPlugins, hpe, hpa, ih h']
      | true =>
        cases hfb : p.fetchB cve with
        | found res =>
          exfalso
          simp [queryPlugins, hpe, hpa, hfb] at h
        | notFound =>
          have h' : (queryPlugins cve ps).1 = none := by
            simpa [queryPlugins, hpe, hpa, hfb] using h
          simp [queryPlugins, hpe, hpa, hfb, ih h']
        | raises msg =>
          have h' : (queryPlugins cve ps).1 = none := by
            simpa [queryPlugins, hpe, hpa, hfb] using h
          simp [queryPlugins, hpe, hpa, hfb, ih h']

/-- C7: exception containment at the dispatcher boundary.  A raising
plugin is embedded as the `raises` branch, so the dispatch loop — and
with it `fetch_cve` — is a total function into structured outcomes: the
exception never propagates to the caller.  Concretely, whenever the
dispatch loop reaches an enabled, available plugin `p` whose `fetch_cve`
raises with message `msg` (the plugins before `p` produced no result),
the loop records the per-plugin diagnostic string `"<name>: <message>"`
and continues with the plugins after `p` exactly as if dispatch had been
started there: the overall result is the one the remaining plugins
produce, the diagnostics and the invocation trace of the suffix follow
`p`'s, and `p` itself appears in the invocation trace. -/
theorem C7_exception_contained (pre post : List Plugin) (p : Plugin)
    (cve msg : String)
    (hpre : (queryPlugins cve pre).1 = none)
    (hpe : p.enabled = true) (hpa : p.availB = true)
    (hraise : p.fetchB cve = .raises msg) :
    queryPlugins cve (pre ++ p :: post) =
      ((queryPlugins cve post).1,
       (queryPlugins cve pre).2.1 ++
         (p.name ++ ": " ++ msg) :: (queryPlugins cve post).2.1,
       (queryPlugins cve pre).2.2 ++ p :: (queryPlugins cve post).2.2) := by
  rw [queryPlugins_append cve pre (p :: post) hpre]
  simp [queryPlugins, hpe, hpa, hraise]

theorem C7_exception_contained_witness :
    queryPlugins "CVE-2025-2" ([plgC7Pre] ++ plgC7Raise :: [plgC7Post]) =
      ((queryPlugins "CVE-2025-2" [plgC7Post]).1,
       (queryPlugins "CVE-2025-2" [plgC7Pre]).2.1 ++
         (plgC7Raise.name ++ ": " ++ "boom") ::
           (queryPlugins "CVE-2025-2" [plgC7Post]).2.1,
       (queryPlugins "CVE-2025-2" [plgC7Pre]).2.2 ++
         plgC7Raise :: (queryPlugins "CVE-2025-2" [plgC7Post]).2.2) :=
  C7_exception_contained [plgC7Pre] [plgC7Post] plgC7Raise "CVE-2025-2" "boom"
    rfl rfl rfl rfl

theorem C2_dispatch_short_circuit_witness :
    fetch_cveT (registerP (registerP [] plgC2A) plgC2B) "CVE-2025-1" none =
        (successDict resC2, [plgC2A]) ∧
      plgC2B ∉ (fetch_cveT (registerP (registerP [] plgC2A) plgC2B) "CVE-2025-1" none).2 :=
  C2_dispatch_short_circuit plgC2A plgC2B "CVE-2025-1" resC2 (by decide)
    rfl rfl rfl rfl rfl _ (Or.inl rfl)

/-! ## Whitespace-stripping lemmas -/

theorem ltrim_headOk (l : List Char) : headOkC (ltrimChars l) := by
  induction l with
  | nil => trivial
  | cons c rest ih =>
    cases h : c.isWhitespace with
    | true => simpa [ltrimChars, List.dropWhile_cons, h] using ih
    | false => simp [ltrimChars, List.dropWhile_cons, h, headOkC]

theorem headOk_ltrim_eq (l : List Char) (h : headOkC l) : ltrimChars l = l := by
  cases l with
  | nil => rfl
  | cons c rest =>
    have hc : c.isWhitespace = false := h
    simp [ltrimChars, List.dropWhile_cons, hc]

theorem rtrim_headOk (l : List Char) (h : headOkC l) : headOkC (rtrimChars l) := by
  cases l with
  | nil => trivial
  | cons c rest =>
    have hc : c.isWhitespace = false := h
    simp [rtrimChars, hc, headOkC]

theorem rtrim_idem (l : List Char) : rtrimChars (rtrimChars l) = rtrimChars l := by
  induction l with
  | nil => rfl
  | cons c rest ih =>
    by_cases h : ((rtrimChars rest).isEmpty && c.isWhitespace) = true
    · simp [rtrimChars, h]
    · simp only [rtrimChars, if_neg h]
      simp only [rtrimChars, ih]
      rw [if_neg h]

theorem trimChars_idem (l : List Char) :
    rtrimChars (ltrimChars (rtrimChars (ltrimChars l))) = rtrimChars (ltrimChars l) := by
  have h2 : headOkC (rtrimChars (ltrimChars l)) := rtrim_headOk _ (ltrim_headOk l)
  rw [headOk_ltrim_eq _ h2, rtrim_idem]

theorem toList_mk (l : List Char) : (String.mk l).toList = l := rfl

theorem pyStrip_idem (s : String) : pyStrip (pyStrip s) = pyStrip s := by
  unfold pyStrip
  rw [toList_mk]
  exact congrArg String.mk (trimChars_idem s.toList)

theorem trimChars_vcons (x : List Char) (hx : rtrimChars x = x) :
    rtrimChars (ltrimChars ('v' :: x)) = 'v' :: x := by
  have hv : ('v').isWhitespace = false := by decide
  have hl : ltrimChars ('v' :: x) = 'v' :: x := by
    simp [ltrimChars, List.dropWhile_cons, hv]
  rw [hl]
  simp [rtrimChars, hv, hx]

theorem pyStrip_vappend (s : String) :
    pyStrip ("v" ++ pyStrip s) = "v" ++ pyStrip s := by
  show String.mk (rtrimChars (ltrimChars ('v' :: rtrimChars (ltrimChars s.toList)))) =
    "v" ++ pyStrip s
  rw [trimChars_vcons _ (rtrim_idem _)]
  rfl

theorem pyStrip_normalize (v : String) :
    pyStrip (normalizeVersion v) = normalizeVersion v := by
  unfold normalizeVersion
  by_cases h : v = ""
  · rw [if_pos h]
    decide
  · rw [if_neg h]
    by_cases hv : startsWithV (pyStrip v) = true
    · rw [if_pos hv]
      exact pyStrip_idem v
    · rw [if_neg hv]
      exact pyStrip_vappend v

/-! ## Local Archive claim theorems -/

/-- C9: case-insensitive lookup in the Local Archive plugin.  For an
enabled plugin, `fetch_cve` returns not-found exactly when no file in the
(possibly absent) synced directory has a name containing the identifier
case-insensitively; equivalently, whenever the directory is present and
some filename matches (as `cve-2021-44228-poc.yaml` matches
`CVE-2021-44228`), a result is returned. -/
theorem C9_case_insensitive_lookup (cfg : NucleiConfig) (fs : NucleiFS)
    (cve : String) (he : cfg.enabled = true) :
    nucleiFetch cfg fs cve = none ↔
      ∀ f ∈ walkOf fs, nameMatches cve f.name = false := by
  cases hd : fs.templates with
  | none => simp [nucleiFetch, nucleiAvailable, walkOf, hd]
  | some d =>
    cases hfind : (walkFiles d).find? (fun f => nameMatches cve f.name) with
    | none =>
      simp only [nucleiFetch, nucleiAvailable, he, hd, walkOf]
      simp [hfind]
      intro f hf
      simpa using List.find?_eq_none.mp hfind f hf
    | some f =>
      simp only [nucleiFetch, nucleiAvailable, he, hd, walkOf]
      simp [hfind]
      exact ⟨f, List.mem_of_find?_eq_some hfind, by simpa using List.find?_some hfind⟩

theorem C9_case_insensitive_lookup_witness :
    cfgC9.enabled = true ∧ (nucleiFetch cfgC9 fsC9 "CVE-2021-44228").isSome = true := by
  refine ⟨rfl, ?_⟩
  cases hopt : nucleiFetch cfgC9 fsC9 "CVE-2021-44228" with
  | none =>
    have h := (C9_case_insensitive_lookup cfgC9 fsC9 "CVE-2021-44228" rfl).mp hopt
    have hmem : ({ path := "http/cves/2021/cve-2021-44228-poc.yaml"
                   name := "cve-2021-44228-poc.yaml"
                   content := "log4j template" } : FileEntry) ∈ walkOf fsC9 := by decide
    have := h _ hmem
    simp only [nameMatches] at this
    exact absurd this (by decide)
  | some r => rfl

/-- C4: Local Archive sync is idempotent.  With auto-update off, if an
`initialize` call succeeded and performed one network download (thereby
installing the target version: directory present, sentinel written), a
second `initialize` against the same state returns success, performs no
network request, and leaves the filesystem state untouched — so exactly
one download happens across the two calls. -/
theorem C4_idempotent (net : NucleiNet) (cfg : NucleiConfig) (fs0 fs1 : NucleiFS)
    (hau : cfg.auto_update = false)
    (h1 : nucleiInit net cfg fs0 = (true, fs1, 1)) :
    nucleiInit net cfg fs1 = (true, fs1, 0) := by
  have htgt : getTargetVersion net cfg = (normalizeVersion cfg.version, 0) := by
    simp [getTargetVersion, hau]
  simp only [nucleiInit, htgt] at h1
  by_cases hcur : getCurrentVersion fs0 = some (normalizeVersion cfg.version)
  · rw [if_pos hcur] at h1
    simp at h1
  · rw [if_neg hcur] at h1
    cases harch : net.archive (normalizeVersion cfg.version) with
    | none => simp [downloadAndExtract, harch] at h1
    | some files =>
      simp [downloadAndExtract, harch] at h1
      subst h1
      simp [nucleiInit, htgt, getCurrentVersion, pyStrip_normalize]

theorem C4_idempotent_witness :
    cfgC4.auto_update = false ∧
      nucleiInit netC4 cfgC4 fsC4b = (true, fsC4b, 0) :=
  ⟨rfl, C4_idempotent netC4 cfgC4 { templates := none, zipTemp := false, tempDir := false }
    fsC4b rfl (by decide)⟩

/-- C1 counterexample: the claim that a failed sync leaves a previously
installed directory unchanged (sentinel still reporting the old version)
is false.  Concretely: version v1.0.0 is installed with its sentinel, the
target is v2.0.0, the download fails — `initialize` returns failure and
removes the temp artifacts, but the templates directory (and with it the
sentinel) has been deleted, because `initialize` removes the old
directory before attempting the download. -/
theorem C1_counterexample :
    fsC1.templates.isSome = true ∧
    getCurrentVersion fsC1 = some "v1.0.0" ∧
    (getTargetVersion netC1 cfgC1).1 = "v2.0.0" ∧
    nucleiInit netC1 cfgC1 fsC1 =
      (false, { templates := none, zipTemp := false, tempDir := false }, 1) := by
  decide

/-- C1 (amended): partial-failure behaviour of the Local Archive sync.
For every state with a previously installed version whose sentinel does
not report the target version, if the download or extraction step fails
then `initialize` returns failure and the temp artifacts (temp zip file,
temp extraction directory) are removed — but the previously installed
directory does NOT survive: it is deleted (together with its sentinel)
before the download is attempted, so the post-failure state has no
templates directory at all.  Under auto-update the same holds for
`update()`. -/
theorem C1_amended_rollback (net : NucleiNet) (cfg : NucleiConfig) (fs : NucleiFS)
    (hins : fs.templates.isSome = true)
    (hstale : getCurrentVersion fs ≠ some (getTargetVersion net cfg).1)
    (hfail : net.archive (getTargetVersion net cfg).1 = none) :
    nucleiInit net cfg fs =
      (false, { templates := none, zipTemp := false, tempDir := false },
       (getTargetVersion net cfg).2 + 1) ∧
    (cfg.auto_update = true →
      nucleiUpdate net cfg fs =
        (false, { templates := none, zipTemp := false, tempDir := false },
         (getTargetVersion net cfg).2 + 1)) := by
  constructor
  · simp only [nucleiInit]
    rw [if_neg hstale]
    simp [downloadAndExtract, hfail, hins]
  · intro hau
    have htgt : getTargetVersion net cfg =
        getLatestVersion net (normalizeVersion cfg.version) := by
      simp [getTargetVersion, hau]
    rw [htgt] at hstale hfail
    simp only [nucleiUpdate, hau]
    rw [htgt]
    rw [if_neg hstale]
    simp [downloadAndExtract, hfail, hins]

theorem C1_amended_rollback_witness :
    fsC1.templates.isSome = true ∧
      nucleiInit netC1 cfgC1 fsC1 =
        (false, { templates := none, zipTemp := false, tempDir := false },
         (getTargetVersion netC1 cfgC1).2 + 1) :=
  ⟨rfl, (C1_amended_rollback netC1 cfgC1 fsC1 rfl (by decide) rfl).1⟩

/-! ## Stable-sort lemmas for the registry -/

theorem pyInsertSorted_perm {α : Type} (key : α → Int) (x : α) (l : List α) :
    List.Perm (pyInsertSorted key x l) (x :: l) := by
  induction l with
  | nil => exact List.Perm.refl _
  | cons y ys ih =>
    simp only [pyInsertSorted]
    by_cases h : key y ≤ key x
    · rw [if_pos h]
      exact (ih.cons y).trans (List.Perm.swap x y ys)
    · rw [if_neg h]

theorem mem_pyInsertSorted {α : Type} (key : α → Int) (x z : α) (l : List α) :
    z ∈ pyInsertSorted key x l ↔ z = x ∨ z ∈ l := by
  rw [(pyInsertSorted_perm key x l).mem_iff]
  simp

theorem pyInsertSorted_append_of_le {α : Type} (key : α → Int) (x : α)
    (l : List α) (h : ∀ y ∈ l, key y ≤ key x) :
    pyInsertSorted key x l = l ++ [x] := by
  induction l with
  | nil => rfl
  | cons y ys ih =>
    simp only [pyInsertSorted, if_pos (h y (by simp))]
    rw [ih (fun z hz => h z (by simp [hz]))]
    simp

theorem foldl_pyInsert_eq {α : Type} (key : α → Int) (l : List α) :
    ∀ acc : List α, (∀ a ∈ acc, ∀ b ∈ l, key a ≤ key b) →
      l.Pairwise (fun a b => key a ≤ key b) →
      l.foldl (fun acc x => pyInsertSorted key x acc) acc = acc ++ l := by
  induction l with
  | nil => intro acc _ _; simp
  | cons x xs ih =>
    intro acc hcross hl
    rcases List.pairwise_cons.mp hl with ⟨hx, hxs⟩
    simp only [List.foldl_cons]
    rw [pyInsertSorted_append_of_le key x acc (fun a ha => hcross a ha x (by simp))]
    have hcross2 : ∀ a ∈ acc ++ [x], ∀ b ∈ xs, key a ≤ key b := by
      intro a ha b hb
      rcases List.mem_append.mp ha with h | h
      · exact hcross a h b (by simp [hb])
      · have hax : a = x := by simpa using h
        subst hax
        exact hx b hb
    rw [ih (acc ++ [x]) hcross2 hxs]
    simp

theorem pySortStable_of_sorted {α : Type} (key : α → Int) (l : List α)
    (hl : l.Pairwise (fun a b => key a ≤ key b)) : pySortStable key l = l := by
  simpa [pySortStable] using foldl_pyInsert_eq key l [] (by simp) hl

theorem pySortStable_concat {α : Type} (key : α → Int) (l : List α) (x : α) :
    pySortStable key (l ++ [x]) = pyInsertSorted key x (pySortStable key l) := by
  simp [pySortStable, List.foldl_append]

theorem insert_pairwise_regOrder (x : Nat × Plugin) (l : List (Nat × Plugin))
    (hl : l.Pairwise regOrder) (hidx : ∀ y ∈ l, y.1 < x.1) :
    (pyInsertSorted (fun a => a.2.priority) x l).Pairwise regOrder := by
  induction l with
  | nil => simp [pyInsertSorted]
  | cons y ys ih =>
    rcases List.pairwise_cons.mp hl with ⟨hy, hys⟩
    simp only [pyInsertSorted]
    by_cases h : y.2.priority ≤ x.2.priority
    · rw [if_pos h]
      refine List.pairwise_cons.mpr
        ⟨?_, ih hys (fun z hz => hidx z (by simp [hz]))⟩
      intro z hz
      rcases (mem_pyInsertSorted _ x z ys).mp hz with rfl | hzy
      · rcases lt_or_eq_of_le h with hlt | heq
        · exact Or.inl hlt
        · exact Or.inr ⟨heq, hidx y (by simp)⟩
      · exact hy z hzy
    · rw [if_neg h]
      have h' : x.2.priority < y.2.priority := not_le.mp h
      refine List.pairwise_cons.mpr ⟨?_, hl⟩
      intro z hz
      rcases List.mem_cons.mp hz with rfl | hzy
      · exact Or.inl h'
      · have hyz : y.2.priority ≤ z.2.priority := by
          rcases hy z hzy with h1 | h1
          · exact le_of_lt h1
          · exact le_of_eq h1.1
        exact Or.inl (lt_of_lt_of_le h' hyz)

theorem regOrder_weaken {l : List (Nat × Plugin)} (h : l.Pairwise regOrder) :
    l.Pairwise (fun a b : Nat × Plugin => a.2.priority ≤ b.2.priority) := by
  refine h.imp ?_
  intro a b hab
  rcases hab with h1 | h1
  · exact le_of_lt h1
  · exact le_of_eq h1.1

theorem registerTagged_step (st : List (Nat × Plugin) × Nat) (p : Plugin)
    (hord : st.1.Pairwise regOrder) (hidx : ∀ y ∈ st.1, y.1 < st.2) :
    (registerTagged st p).1.Pairwise regOrder ∧
      ∀ y ∈ (registerTagged st p).1, y.1 < (registerTagged st p).2 := by
  have heq : (registerTagged st p).1 =
      pyInsertSorted (fun a => a.2.priority) (st.2, p) st.1 := by
    show pySortStable (fun a => a.2.priority) (st.1 ++ [(st.2, p)]) = _
    rw [pySortStable_concat, pySortStable_of_sorted _ _ (regOrder_weaken hord)]
  constructor
  · rw [heq]
    exact insert_pairwise_regOrder (st.2, p) st.1 hord hidx
  · intro y hy
    rw [heq] at hy
    rcases (mem_pyInsertSorted _ _ y st.1).mp hy with rfl | hmem
    · exact Nat.lt_succ_self st.2
    · exact Nat.lt_succ_of_lt (hidx y hmem)

theorem registerSeq_invariant (ps : List Plugin) :
    (registerSeq ps).1.Pairwise regOrder ∧
      ∀ y ∈ (registerSeq ps).1, y.1 < (registerSeq ps).2 := by
  suffices h : ∀ st : List (Nat × Plugin) × Nat, st.1.Pairwise regOrder →
      (∀ y ∈ st.1, y.1 < st.2) →
      (ps.foldl registerTagged st).1.Pairwise regOrder ∧
        ∀ y ∈ (ps.foldl registerTagged st).1, y.1 < (ps.foldl registerTagged st).2 by
    exact h ([], 0) (by simp) (by simp)
  induction ps with
  | nil => intro st h1 h2; exact ⟨h1, h2⟩
  | cons p rest ih =>
    intro st h1 h2
    simp only [List.foldl_cons]
    have hstep := registerTagged_step st p h1 h2
    exact ih _ hstep.1 hstep.2

theorem map_snd_pyInsertSorted (x : Nat × Plugin) (l : List (Nat × Plugin)) :
    (pyInsertSorted (fun a => a.2.priority) x l).map Prod.snd =
      pyInsertSorted Plugin.priority x.2 (l.map Prod.snd) := by
  induction l with
  | nil => rfl
  | cons y ys ih =>
    simp only [pyInsertSorted, List.map_cons]
    by_cases h : y.2.priority ≤ x.2.priority
    · rw [if_pos h, if_pos h, List.map_cons, ih]
    · rw [if_neg h, if_neg h]
      simp

theorem map_snd_pySortStable (l : List (Nat × Plugin)) :
    (pySortStable (fun a => a.2.priority) l).map Prod.snd =
      pySortStable Plugin.priority (l.map Prod.snd) := by
  suffices h : ∀ acc : List (Nat × Plugin),
      (l.foldl (fun acc x => pyInsertSorted (fun a => a.2.priority) x acc) acc).map
          Prod.snd =
        (l.map Prod.snd).foldl (fun acc x => pyInsertSorted Plugin.priority x acc)
          (acc.map Prod.snd) by
    simpa [pySortStable] using h []
  induction l with
  | nil => intro acc; simp
  | cons y ys ih =>
    intro acc
    simp only [List.foldl_cons, List.map_cons]
    rw [ih, map_snd_pyInsertSorted]

theorem registerSeq_erase (ps : List Plugin) :
    registerSeqP ps = (registerSeq ps).1.map Prod.snd := by
  suffices h : ∀ (stT : List (Nat × Plugin) × Nat) (stP : List Plugin),
      stP = stT.1.map Prod.snd →
      ps.foldl registerP stP = (ps.foldl registerTagged stT).1.map Prod.snd by
    exact h ([], 0) [] rfl
  induction ps with
  | nil => intro stT stP h; simpa using h
  | cons p rest ih =>
    intro stT stP h
    simp only [List.foldl_cons]
    apply ih
    subst h
    show registerP (stT.1.map Prod.snd) p = _
    show _ = (pySortStable (fun a => a.2.priority) (stT.1 ++ [(stT.2, p)])).map Prod.snd
    rw [map_snd_pySortStable]
    simp [registerP]

/-- C3: registry order invariant.  For every sequence of `register` calls
(started from a fresh manager), the resulting plugin list — tagged with
ghost registration indices — is pairwise ordered by non-decreasing
priority with equal priorities in registration order; and erasing the
ghost tags recovers exactly the untagged `_plugins` list built by the
code's `register`, so the same order governs `list_plugins` and dispatch
iteration. -/
theorem C3_registry_order (ps : List Plugin) :
    (registerSeq ps).1.Pairwise regOrder ∧
      registerSeqP ps = (registerSeq ps).1.map Prod.snd :=
  ⟨(registerSeq_invariant ps).1, registerSeq_erase ps⟩

/-! ## `fetch_cve_from_all` lemmas -/

theorem sourceResultOf_success (p : Plugin) (cve : String) :
    (sourceResultOf p cve).success = (p.fetchB cve).isFound := by
  cases h : p.fetchB cve <;> simp [sourceResultOf, h, PluginFetch.isFound]

theorem queryAllGo_trace (cve : String) (st : List Plugin) :
    ∀ acc inv, (queryAllGo cve acc inv st).2 = inv ++ st.filter activeP := by
  induction st with
  | nil => intro acc inv; simp [queryAllGo]
  | cons p rest ih =>
    intro acc inv
    by_cases h : activeP p = true
    · simp only [queryAllGo, if_pos h, List.filter_cons_of_pos h]
      rw [ih]
      simp
    · simp only [queryAllGo, if_neg h, List.filter_cons_of_neg (by simpa using h)]
      exact ih acc inv

theorem dictInsert_fresh {β : Type} (k : String) (v : β) (d : List (String × β))
    (h : ∀ e ∈ d, e.1 ≠ k) : dictInsert k v d = d ++ [(k, v)] := by
  induction d with
  | nil => rfl
  | cons e rest ih =>
    simp only [dictInsert]
    rw [if_neg (h e (by simp)), ih (fun x hx => h x (by simp [hx]))]
    simp

theorem mem_keys_dictInsert {β : Type} (k a : String) (v : β)
    (d : List (String × β)) :
    a ∈ (dictInsert k v d).map Prod.fst ↔ a = k ∨ a ∈ d.map Prod.fst := by
  induction d with
  | nil => simp [dictInsert, eq_comm]
  | cons e rest ih =>
    simp only [dictInsert]
    by_cases h : e.1 = k
    · rw [if_pos h]
      simp [h, eq_comm]
    · rw [if_neg h]
      simp only [List.map_cons, List.mem_cons, ih]
      tauto

theorem keys_nodup_dictInsert {β : Type} (k : String) (v : β)
    (d : List (String × β)) (h : (d.map Prod.fst).Nodup) :
    ((dictInsert k v d).map Prod.fst).Nodup := by
  induction d with
  | nil => simp [dictInsert]
  | cons e rest ih =>
    simp only [List.map_cons, List.nodup_cons] at h
    simp only [dictInsert]
    by_cases he : e.1 = k
    · rw [if_pos he]
      simp only [List.map_cons, List.nodup_cons]
      exact ⟨by rw [← he]; exact h.1, h.2⟩
    · rw [if_neg he]
      simp only [List.map_cons, List.nodup_cons]
      refine ⟨?_, ih h.2⟩
      rw [mem_keys_dictInsert]
      rintro (h1 | h1)
      · exact he h1
      · exact h.1 h1

theorem dictGet_dictInsert_self {β : Type} (k : String) (v : β)
    (d : List (String × β)) : dictGet k (dictInsert k v d) = some v := by
  induction d with
  | nil => simp [dictInsert, dictGet]
  | cons e rest ih =>
    simp only [dictInsert]
    by_cases h : e.1 = k
    · rw [if_pos h]
      simp [dictGet]
    · rw [if_neg h]
      simp [dictGet, h, ih]

theorem dictGet_dictInsert_ne {β : Type} (k k' : String) (v : β)
    (d : List (String × β)) (h : k ≠ k') :
    dictGet k' (dictInsert k v d) = dictGet k' d := by
  induction d with
  | nil => simp [dictInsert, dictGet, h]
  | cons e rest ih =>
    simp only [dictInsert]
    by_cases he : e.1 = k
    · rw [if_pos he]
      have h2 : e.1 ≠ k' := by rw [he]; exact h
      simp [dictGet, h, h2]
    · rw [if_neg he]
      simp only [dictGet, ih]

theorem queryAllGo_dict_fresh (cve : String) (st : List Plugin) :
    ∀ acc inv, (∀ p ∈ st, activeP p = true → ∀ e ∈ acc, e.1 ≠ p.name) →
      ((st.filter activeP).map Plugin.name).Nodup →
      (queryAllGo cve acc inv st).1 =
        acc ++ (st.filter activeP).map (fun p => (p.name, sourceResultOf p cve)) := by
  induction st with
  | nil => intro acc inv _ _; simp [queryAllGo]
  | cons p rest ih =>
    intro acc inv hfresh hnd
    by_cases hp : activeP p = true
    · rw [List.filter_cons_of_pos hp] at hnd
      simp only [List.map_cons, List.nodup_cons] at hnd
      simp only [queryAllGo, if_pos hp]
      rw [dictInsert_fresh p.name _ acc (fun e he => hfresh p (by simp) hp e he)]
      have hfresh2 : ∀ q ∈ rest, activeP q = true →
          ∀ e ∈ acc ++ [(p.name, sourceResultOf p cve)], e.1 ≠ q.name := by
        intro q hq hqa e he
        rcases List.mem_append.mp he with h1 | h1
        · exact hfresh q (by simp [hq]) hqa e h1
        · have he2 : e = (p.name, sourceResultOf p cve) := by simpa using h1
          subst he2
          intro hcontra
          apply hnd.1
          have hpq : p.name = q.name := hcontra
          rw [hpq]
          exact List.mem_map_of_mem Plugin.name (List.mem_filter.mpr ⟨hq, hqa⟩)
      rw [ih _ (inv ++ [p]) hfresh2 hnd.2]
      rw [List.filter_cons_of_pos hp]
      simp
    · simp only [queryAllGo, if_neg hp]
      rw [List.filter_cons_of_neg (by simpa using hp)] at hnd ⊢
      exact ih acc inv (fun q hq => hfresh q (by simp [hq])) hnd

theorem queryAllGo_keys_nodup (cve : String) (st : List Plugin) :
    ∀ acc inv, ((acc.map Prod.fst).Nodup) →
      (((queryAllGo cve acc inv st).1.map Prod.fst).Nodup) := by
  induction st with
  | nil => intro acc inv h; simpa [queryAllGo] using h
  | cons p rest ih =>
    intro acc inv h
    by_cases hp : activeP p = true
    · simp only [queryAllGo, if_pos hp]
      exact ih _ _ (keys_nodup_dictInsert _ _ _ h)
    · simp only [queryAllGo, if_neg hp]
      exact ih acc inv h

theorem queryAllGo_mem_keys (cve n : String) (st : List Plugin) :
    ∀ acc inv, (n ∈ (queryAllGo cve acc inv st).1.map Prod.fst ↔
      n ∈ acc.map Prod.fst ∨ n ∈ (st.filter activeP).map Plugin.name) := by
  induction st with
  | nil => intro acc inv; simp [queryAllGo]
  | cons p rest ih =>
    intro acc inv
    by_cases hp : activeP p = true
    · simp only [queryAllGo, if_pos hp, List.filter_cons_of_pos hp]
      rw [ih]
      rw [mem_keys_dictInsert]
      simp only [List.map_cons, List.mem_cons]
      tauto
    · simp only [queryAllGo, if_neg hp,
        List.filter_cons_of_neg (by simpa using hp)]
      exact ih acc inv

theorem queryAllGo_dictGet (cve n : String) (st : List Plugin) :
    ∀ acc inv, dictGet n (queryAllGo cve acc inv st).1 =
      match ((st.filter activeP).filter (fun p => p.name = n)).getLast? with
      | some q => some (sourceResultOf q cve)
      | none => dictGet n acc := by
  induction st with
  | nil => intro acc inv; simp [queryAllGo]
  | cons p rest ih =>
    intro acc inv
    by_cases hp : activeP p = true
    · simp only [queryAllGo, if_pos hp, List.filter_cons_of_pos hp]
      rw [ih]
      by_cases hn : p.name = n
      · rw [List.filter_cons_of_pos (by simpa using hn)]
        cases hrest : (rest.filter activeP).filter (fun p => p.name = n) with
        | nil =>
          simp only [List.getLast?_singleton]
          rw [hn]
          exact dictGet_dictInsert_self n _ acc
        | cons q qs =>
          rw [List.getLast?_cons_cons,
            List.getLast?_eq_getLast_of_ne_nil (List.cons_ne_nil q qs)]
      · rw [List.filter_cons_of_neg (by simpa using hn)]
        cases hrest : (rest.filter activeP).filter (fun p => p.name = n) with
        | nil => exact dictGet_dictInsert_ne p.name n _ acc hn
        | cons q qs =>
          rw [List.getLast?_eq_getLast_of_ne_nil (List.cons_ne_nil q qs)]
    · simp only [queryAllGo, if_neg hp,
        List.filter_cons_of_neg (by simpa using hp)]
      exact ih acc inv

/-! ## `fetch_cve_from_all` claim theorems -/

/-- C6 counterexample: with two registered plugins that share the display
name `Dup` and are both enabled and available — the first finding the
identifier, the second missing it — `fetch_cve_from_all` still invokes
both exactly once, yet `found_in` is empty and so does not list the
plugin whose lookup succeeded: the second plugin's entry overwrote the
first one under the shared dict key.  This refutes the claim that
`found_in` lists exactly the plugins whose lookup succeeded for every
registered plugin set. -/
theorem C6_counterexample :
    (fetch_cve_from_allT [plgC6A, plgC6B] "CVE-2025-3").2 = [plgC6A, plgC6B] ∧
    (plgC6A.fetchB "CVE-2025-3").isFound = true ∧
    (fetch_cve_from_all [plgC6A, plgC6B] "CVE-2025-3").found_in ≠
      (([plgC6A, plgC6B].filter activeP).filter
          (fun p => (p.fetchB "CVE-2025-3").isFound)).map Plugin.name := by
  refine ⟨rfl, rfl, ?_⟩
  decide

/-- C6 (amended): `fetch_cve_from_all` exhaustiveness.  For every
identifier and registered plugin set, the plugins whose `fetch_cve` is
invoked are exactly the enabled-and-available ones, each exactly once in
registry order regardless of earlier successes (disabled or unavailable
plugins are never invoked); and — provided the enabled-and-available
plugins have pairwise distinct display names, which the duplicate-name
counterexample forces as a proviso — the per-source dict holds each
queried plugin's own entry and `found_in` lists exactly the names of the
plugins whose lookup succeeded. -/
theorem C6_amended_fetch_all (st : List Plugin) (cve : String) :
    (fetch_cve_from_allT st cve).2 = st.filter activeP ∧
      (((st.filter activeP).map Plugin.name).Nodup →
        fetch_cve_from_all st cve =
          { cve_id := cve
            sources := (st.filter activeP).map
              (fun p => (p.name, sourceResultOf p cve))
            found_in := ((st.filter activeP).filter
                (fun p => (p.fetchB cve).isFound)).map Plugin.name }) := by
  constructor
  · show (queryAllGo cve [] [] st).2 = _
    simpa using queryAllGo_trace cve st [] []
  · intro hnd
    have hdict : (queryAllGo cve [] [] st).1 =
        (st.filter activeP).map (fun p => (p.name, sourceResultOf p cve)) := by
      simpa using queryAllGo_dict_fresh cve st [] [] (by simp) hnd
    show ({ cve_id := cve
            sources := (queryAllGo cve [] [] st).1
            found_in := ((queryAllGo cve [] [] st).1.filter
                (fun e => e.2.success)).map Prod.fst } : AllSourcesResult) = _
    rw [hdict]
    refine congrArg _ ?_
    rw [List.filter_map]
    rw [List.map_map]
    rw [List.filter_congr (fun p _ => ?_)]
    · rfl
    · show ((fun e : String × SourceResult => e.2.success) ∘
          fun p => (p.name, sourceResultOf p cve)) p = (p.fetchB cve).isFound
      simp [sourceResultOf_success]

theorem C6_amended_fetch_all_witness :
    (([plgC6C, plgC6D].filter activeP).map Plugin.name).Nodup ∧
      fetch_cve_from_all [plgC6C, plgC6D] "CVE-2025-3" =
        { cve_id := "CVE-2025-3"
          sources := ([plgC6C, plgC6D].filter activeP).map
            (fun p => (p.name, sourceResultOf p "CVE-2025-3"))
          found_in := (([plgC6C, plgC6D].filter activeP).filter
              (fun p => (p.fetchB "CVE-2025-3").isFound)).map Plugin.name } :=
  ⟨by decide, (C6_amended_fetch_all [plgC6C, plgC6D] "CVE-2025-3").2 (by decide)⟩

/-- C10: duplicate-name collapse in `fetch_cve_from_all`.  When at least
two enabled-and-available registered plugins share the display name `n`,
the returned per-source dict contains exactly one entry keyed `n`, that
entry is the result of the last-queried plugin named `n` (overwriting the
earlier ones), `found_in` lists `n` at most once — so per-plugin results
are lost for duplicate names — and yet every enabled-and-available plugin
(including all the same-named ones) had its `fetch_cve` invoked. -/
theorem C10_duplicate_name_collapse (st : List Plugin) (n cve : String)
    (hdup : 2 ≤ ((st.filter activeP).filter (fun p => p.name = n)).length) :
    ((fetch_cve_from_all st cve).sources.map Prod.fst).count n = 1 ∧
    (∀ q, ((st.filter activeP).filter (fun p => p.name = n)).getLast? = some q →
        dictGet n (fetch_cve_from_all st cve).sources =
          some (sourceResultOf q cve)) ∧
    (fetch_cve_from_all st cve).found_in.count n ≤ 1 ∧
    (fetch_cve_from_allT st cve).2 = st.filter activeP := by
  have hsources : (fetch_cve_from_all st cve).sources = (queryAllGo cve [] [] st).1 := rfl
  have hmemn : n ∈ (st.filter activeP).map Plugin.name := by
    have hlen : ((st.filter activeP).filter (fun p => p.name = n)).length ≠ 0 := by
      omega
    rcases List.exists_mem_of_length_pos (Nat.pos_of_ne_zero hlen) with ⟨q, hq⟩
    rcases List.mem_filter.mp hq with ⟨hq1, hq2⟩
    have : q.name = n := by simpa using hq2
    rw [← this]
    exact List.mem_map_of_mem Plugin.name hq1
  have hnodup : ((fetch_cve_from_all st cve).sources.map Prod.fst).Nodup := by
    rw [hsources]
    exact queryAllGo_keys_nodup cve st [] [] (by simp)
  have hmem : n ∈ (fetch_cve_from_all st cve).sources.map Prod.fst := by
    rw [hsources, queryAllGo_mem_keys]
    exact Or.inr hmemn
  have hcount : ((fetch_cve_from_all st cve).sources.map Prod.fst).count n = 1 :=
    List.count_eq_one_of_mem hnodup hmem
  refine ⟨hcount, ?_, ?_, ?_⟩
  · intro q hq
    rw [hsources, queryAllGo_dictGet, hq]
  · have hsub : (fetch_cve_from_all st cve).found_in.count n ≤
        ((fetch_cve_from_all st cve).sources.map Prod.fst).count n := by
      refine List.Sublist.count_le ?_ n
      show (((queryAllGo cve [] [] st).1.filter
          (fun e => e.2.success)).map Prod.fst).Sublist
        ((queryAllGo cve [] [] st).1.map Prod.fst)
      exact ((queryAllGo cve [] [] st).1.filter_sublist).map Prod.fst
    omega
  · show (queryAllGo cve [] [] st).2 = _
    simpa using queryAllGo_trace cve st [] []

theorem C10_duplicate_name_collapse_witness :
    2 ≤ (([plgC10A, plgC10B].filter activeP).filter
        (fun p => p.name = "Twin")).length ∧
      dictGet "Twin"
          (fetch_cve_from_all [plgC10A, plgC10B] "CVE-2025-4").sources =
        some (sourceResultOf plgC10B "CVE-2025-4") :=
  ⟨by decide,
   (C10_duplicate_name_collapse [plgC10A, plgC10B] "Twin" "CVE-2025-4"
      (by decide)).2.1 plgC10B rfl⟩

end MCP
